import Mathlib

/-!
A shallow embedding of `src/Marathon.py`, the concurrent multi-device audit
orchestrator.  Python strings are modelled as `List Char`; a netmiko
connection is modelled by the outcomes of its `enable`, `send_command` and
`send_config_set` calls; an exception in flight is a `PyExc` value and a
Python function that may raise returns `Except PyExc`.
-/

namespace Marathon

/-- Exception kinds that can be in flight in the modelled program. -/
inductive PyExc where
  /-- raised when an `except` clause names the undefined identifier `Error` -/
  | nameError
  /-- raised by `str + bool` concatenation -/
  | typeError
  /-- raised by an out-of-range sequence index -/
  | indexError
  /-- raised by a failing netmiko call (connect / command / config) -/
  | netError
  deriving DecidableEq, Repr

/-- A Python runtime value that the audit steps can return: a string on the
normal path, a boolean from `create_backup` and the dead handler branches. -/
inductive PyVal where
  | str (s : List Char)
  | bool (b : Bool)
  deriving DecidableEq, Repr

/-- The characters of a string literal. -/
def chars (s : String) : List Char := s.data

/-- Python truthiness of a string: non-empty strings are truthy. -/
def pyTruthy (s : List Char) : Bool := !s.isEmpty

/-- Split a character list at every character satisfying `p`, keeping empty
segments — the semantics of Python's `str.split(sep)` for a one-character
separator (with `p` testing equality with that separator). -/
def splitOnP (p : Char → Bool) : List Char → List (List Char)
  | [] => [[]]
  | c :: rest =>
    if p c then [] :: splitOnP p rest
    else (c :: (splitOnP p rest).headD []) :: (splitOnP p rest).tail

/-- Python's `str.split(sep)` for the one-character separator `sep`. -/
def splitOnChar (sep : Char) (s : List Char) : List (List Char) :=
  splitOnP (fun c => c == sep) s

/-- Whitespace characters recognised by Python's argument-free `str.split()`. -/
def isPySpace (c : Char) : Bool :=
  c == ' ' || c == '\t' || c == '\n' || c == '\r' ||
    c == Char.ofNat 11 || c == Char.ofNat 12

/-- Python's argument-free `str.split()`: split on whitespace runs and drop
the empty segments. -/
def pyWords (s : List Char) : List (List Char) :=
  (splitOnP isPySpace s).filter (fun l => !l.isEmpty)

/-- `true` when `a` is a prefix of `b`. -/
def isPrefixList : List Char → List Char → Bool
  | [], _ => true
  | _ :: _, [] => false
  | a :: as, b :: bs => a == b && isPrefixList as bs

/-- Split `s` at the leftmost occurrence of `sep`: `some (before, after)`
when `sep` occurs, `none` otherwise. -/
def splitFirst (sep : List Char) : List Char → Option (List Char × List Char)
  | [] => if isPrefixList sep [] then some ([], []) else none
  | c :: rest =>
    if isPrefixList sep (c :: rest) then some ([], (c :: rest).drop sep.length)
    else
      match splitFirst sep rest with
      | none => none
      | some (pre, post) => some (c :: pre, post)

/-- Python's substring membership test `sep in s`. -/
def containsSub (sep s : List Char) : Bool := (splitFirst sep s).isSome

/-- Python's `s.split(sep)[0]` for a non-empty separator: the text before the
first occurrence of `sep`, or all of `s` when `sep` does not occur. -/
def pySplit0 (sep s : List Char) : List Char :=
  match splitFirst sep s with
  | none => s
  | some (pre, _) => pre

/-- Python's `s.split(sep)[1]` for a non-empty separator: the text between
the first and second occurrences of `sep`; raises `IndexError` when `sep`
does not occur at all. -/
def pySplit1 (sep s : List Char) : Except PyExc (List Char) :=
  match splitFirst sep s with
  | none => .error .indexError
  | some (_, post) =>
    match splitFirst sep post with
    | none => .ok post
    | some (mid, _) => .ok mid

/-- Python sequence indexing `l[i]`, with negative indices counting from the
end and `IndexError` out of range. -/
def pyIndex {α : Type} [Inhabited α] (l : List α) (i : Int) : Except PyExc α :=
  let j : Int := if i < 0 then i + l.length else i
  if 0 ≤ j ∧ j < l.length then .ok (l.getD j.toNat default) else .error .indexError

/-- Python `dict.update({k: v})` on a dict represented as an association
list in insertion order: replace the value at `k` when present, append
`(k, v)` otherwise. -/
def dictUpdate {κ ω : Type} [DecidableEq κ] (d : List (κ × ω)) (k : κ) (v : ω) :
    List (κ × ω) :=
  if d.any (fun p => decide (p.1 = k)) then
    d.map (fun p => if p.1 = k then (k, v) else p)
  else d ++ [(k, v)]

/-- Models Python `try: «body» except Error: «handler»` as written in
`Marathon.py`, where `Error` is an undefined identifier: when the body
raises, evaluating the `except Error` clause itself raises `NameError`, so
the handler body never runs and the original exception is replaced by a
`NameError` that propagates to the caller. -/
def tryExceptError {α : Type} (body : Except PyExc α) : Except PyExc α :=
  match body with
  | .ok a => .ok a
  | .error _ => .error .nameError

/-- One inventory row (`devices.csv`): the keys read from the CSV. -/
structure Device where
  ip : List Char
  username : List Char
  password : List Char
  device_type : List Char
  hostname : List Char
  ntp_type : List Char

/-- The behaviour of one netmiko connection: whether `enable()` succeeds and,
for each command text, the output of `send_command` / `send_config_set`
(`none` models the call raising). -/
structure Conn where
  enableOk : Bool
  send_command : List Char → Option (List Char)
  send_config_set : List Char → Option (List Char)

/-- A netmiko call's outcome lifted into the exception monad: a `none`
behaviour raises. -/
def netCall (r : Option (List Char)) : Except PyExc (List Char) :=
  match r with
  | none => .error .netError
  | some s => .ok s

/-- `connection.enable()`: raises when the behaviour says it fails. -/
def enableCall (c : Conn) : Except PyExc Unit :=
  if c.enableOk then .ok () else .error .netError

/-- `connect_to_device` (Marathon.py:53): `ConnectHandler(...)`; raising is
uncaught, so a failed connect is an exception in flight. The model input is
the outcome of `ConnectHandler` for this device. -/
def connect_to_device (net : Option Conn) : Except PyExc Conn :=
  match net with
  | none => .error .netError
  | some c => .ok c

/-- `disconnect_from_device` (Marathon.py:73): `connection.disconnect()`,
modelled as effect-free; `process_target` records whether it was reached. -/
def disconnect_from_device (_conn : Conn) : Unit := ()

/-- `create_backup` (Marathon.py:96): enable, `send_command('sh run')`, write
the backup file (file I/O is modelled as always succeeding) and return
`True`.  The `except Error` handler would return `False` but can never run
(see `tryExceptError`). -/
def create_backup (conn : Conn) : Except PyExc PyVal :=
  tryExceptError (
    match enableCall conn with
    | .error e => .error e
    | .ok _ =>
    match netCall (conn.send_command (chars "sh run")) with
    | .error e => .error e
    | .ok _output => .ok (.bool true))

/-- The association-list dict built by the `for neighbor_line in neighbors`
loop of `parse_cdp_nei` (Marathon.py:161): keys are
(local device name, local port), values (remote device name, remote port). -/
abbrev NeighborDict : Type :=
  List ((List Char × List Char) × (List Char × List Char))

/-- The fields drawn from one neighbor line of `parse_cdp_nei`
(Marathon.py:162), in Python's left-to-right evaluation order of the dict
display `{(device_name, s[1]+s[2]): (s[0], s[-2]+s[-1])}` where
`s = neighbor_line.split()`: the local port `s[1]+s[2]`, then the value pair
`(s[0], s[-2]+s[-1])`; the first out-of-range index raises `IndexError`. -/
def lineKV (w : List (List Char)) :
    Except PyExc (List Char × (List Char × List Char)) :=
  match pyIndex w 1 with
  | .error e => .error e
  | .ok f1 =>
  match pyIndex w 2 with
  | .error e => .error e
  | .ok f2 =>
  match pyIndex w 0 with
  | .error e => .error e
  | .ok f0 =>
  match pyIndex w (-2) with
  | .error e => .error e
  | .ok fm2 =>
  match pyIndex w (-1) with
  | .error e => .error e
  | .ok fm1 => .ok (f1 ++ f2, (f0, fm2 ++ fm1))

/-- The `for neighbor_line in neighbors` loop of `parse_cdp_nei`
(Marathon.py:161): insert `(device_name, localPort) ↦ (remote, remotePort)`
for each line into the dict, an out-of-range field index raising out of the
loop. -/
def parseLines (device_name : List Char) :
    List (List Char) → NeighborDict → Except PyExc NeighborDict
  | [], acc => .ok acc
  | line :: rest, acc =>
    match lineKV (pyWords line) with
    | .error e => .error e
    | .ok kv =>
      parseLines device_name rest (dictUpdate acc (device_name, kv.1) kv.2)

/-- `parse_cdp_nei` (Marathon.py:149): device name is
`split('>')[0].replace('\n','')`; the body is `split('Port ID')[1]`, cut
into lines with the empty ones removed (`while '' in neighbors:
neighbors.remove('')`); then the line loop builds the dict. -/
def parse_cdp_nei (out : List Char) : Except PyExc NeighborDict :=
  match pySplit1 (chars "Port ID") out with
  | .error e => .error e
  | .ok body =>
    parseLines
      (((splitOnChar '>' out).headD []).filter (fun c => c != '\n'))
      ((splitOnChar '\n' body).filter (fun l => !l.isEmpty)) []

/-- `check_cdp` (Marathon.py:120): enable; query `sho run | in no cdp run`;
when `no cdp run` occurs in the output send the `cdp run` config set; then
query `sho cdp neigh`, parse it, and report `CDP is on, N peers` when the
parsed dict is non-empty and `CDP is off` otherwise. -/
def check_cdp (conn : Conn) : Except PyExc PyVal :=
  tryExceptError (
    match enableCall conn with
    | .error e => .error e
    | .ok _ =>
    match netCall (conn.send_command (chars "sho run | in no cdp run")) with
    | .error e => .error e
    | .ok output =>
    match (if containsSub (chars "no cdp run") output then
             netCall (conn.send_config_set (chars "cdp run"))
           else .ok []) with
    | .error e => .error e
    | .ok _ =>
    match netCall (conn.send_command (chars "sho cdp neigh")) with
    | .error e => .error e
    | .ok output2 =>
    match parse_cdp_nei output2 with
    | .error e => .error e
    | .ok d =>
      if d.length ≠ 0 then
        .ok (.str (chars "CDP is on, " ++ chars (toString d.length) ++ chars " peers"))
      else .ok (.str (chars "CDP is off")))

/-- `config_ntp` (Marathon.py:166): enable; configure the timezone; configure
`ntp master` for the `server` role or `ntp server 192.168.194.101` for the
`client` role; `time.sleep(5.0)` has no observable effect in the model; then
query `sho ntp status` and report on the literal `Clock is synchronized`. -/
def config_ntp (conn : Conn) (ntp_type : List Char) : Except PyExc PyVal :=
  tryExceptError (
    match enableCall conn with
    | .error e => .error e
    | .ok _ =>
    match netCall (conn.send_config_set (chars "clock timezone GMT 0")) with
    | .error e => .error e
    | .ok _ =>
    match (if ntp_type = chars "server" then
             netCall (conn.send_config_set (chars "ntp master"))
           else if ntp_type = chars "client" then
             netCall (conn.send_config_set (chars "ntp server 192.168.194.101"))
           else .ok []) with
    | .error e => .error e
    | .ok _ =>
    match netCall (conn.send_command (chars "sho ntp status")) with
    | .error e => .error e
    | .ok output =>
      if containsSub (chars "Clock is synchronized") output then
        .ok (.str (chars "Clock in Sync"))
      else .ok (.str (chars "Clock not in Sync")))

/-- `Check_NPE` (Marathon.py:191): enable; query `sho ver | in IOS`; the
condition `'k9' or 'K9' in output` parses as `('k9') or ('K9' in output)` —
the truthiness of the literal, OR-ed with the membership test. -/
def Check_NPE (conn : Conn) : Except PyExc PyVal :=
  tryExceptError (
    match enableCall conn with
    | .error e => .error e
    | .ok _ =>
    match netCall (conn.send_command (chars "sho ver | in IOS")) with
    | .error e => .error e
    | .ok output =>
      if pyTruthy (chars "k9") || containsSub (chars "K9") output then
        .ok (.str (chars "PE"))
      else .ok (.str (chars "NPE")))

/-- `Check_ver` (Marathon.py:209): enable; query `sho ver | in IOS`; return
`output.split(',')[2]`. -/
def Check_ver (conn : Conn) : Except PyExc PyVal :=
  tryExceptError (
    match enableCall conn with
    | .error e => .error e
    | .ok _ =>
    match netCall (conn.send_command (chars "sho ver | in IOS")) with
    | .error e => .error e
    | .ok output =>
    match pyIndex (splitOnChar ',' output) 2 with
    | .error e => .error e
    | .ok ver => .ok (.str ver))

/-- `Check_dev_pid` (Marathon.py:222): enable; query `sho ver | in IOS`;
return `output.split(',')[1].split('Software')[0]`. -/
def Check_dev_pid (conn : Conn) : Except PyExc PyVal :=
  tryExceptError (
    match enableCall conn with
    | .error e => .error e
    | .ok _ =>
    match netCall (conn.send_command (chars "sho ver | in IOS")) with
    | .error e => .error e
    | .ok output =>
    match pyIndex (splitOnChar ',' output) 1 with
    | .error e => .error e
    | .ok piece => .ok (.str (pySplit0 (chars "Software") piece)))

/-- Python `str + value` where the left side is a string: string
concatenation, or `TypeError` when the right side is a boolean. -/
def pyAddStr (a : List Char) (v : PyVal) : Except PyExc (List Char) :=
  match v with
  | .str s => .ok (a ++ s)
  | .bool _ => .error .typeError

/-- `process_target` (Marathon.py:235): connect (uncaught on failure), run
backup and the five checks in order (each aborts the rest when its
`NameError` escapes), call `disconnect_from_device`, then build
`hostname|pid|ver|npe|cdp|ntp`.  `get_backup_file_path` and the file I/O are
modelled as always succeeding.  The first component is the worker's outcome
(the returned summary line, or the exception in flight); the second is
`true` exactly when `disconnect_from_device` was reached. -/
def process_target (device : Device) (net : Option Conn) :
    Except PyExc (List Char) × Bool :=
  match connect_to_device net with
  | .error e => (.error e, false)
  | .ok conn =>
    match create_backup conn with
    | .error e => (.error e, false)
    | .ok _backup_result =>
    match Check_dev_pid conn with
    | .error e => (.error e, false)
    | .ok pid =>
    match Check_ver conn with
    | .error e => (.error e, false)
    | .ok ver =>
    match check_cdp conn with
    | .error e => (.error e, false)
    | .ok cdp =>
    match Check_NPE conn with
    | .error e => (.error e, false)
    | .ok npe =>
    match config_ntp conn device.ntp_type with
    | .error e => (.error e, false)
    | .ok ntp =>
      let _ := disconnect_from_device conn
      ((match pyAddStr (device.hostname ++ chars "|") pid with
        | .error e => .error e
        | .ok s1 =>
        match pyAddStr (s1 ++ chars "|") ver with
        | .error e => .error e
        | .ok s2 =>
        match pyAddStr (s2 ++ chars "|") npe with
        | .error e => .error e
        | .ok s3 =>
        match pyAddStr (s3 ++ chars "|") cdp with
        | .error e => .error e
        | .ok s4 =>
        match pyAddStr (s4 ++ chars "|") ntp with
        | .error e => .error e
        | .ok s5 => .ok s5), true)

/-- The collection loop of `main` (Marathon.py:274): one `apply_async` per
inventory row, then `result.append(process.get())` in inventory order;
`process.get()` re-raises the worker's exception in the parent, so the first
failed worker aborts `main` before `result.txt` is written.  The input pairs
each inventory row with the `ConnectHandler` outcome for it; the output is
the collected summary lines, or the exception that aborted `main`. -/
def mainResults (inventory : List (Device × Option Conn)) :
    Except PyExc (List (List Char)) :=
  match inventory with
  | [] => .ok []
  | (device, net) :: rest =>
    match (process_target device net).1 with
    | .error e => .error e
    | .ok line =>
      match mainResults rest with
      | .error e => .error e
      | .ok lines => .ok (line :: lines)

/-! ### The specification's neighbor-relation rule (spec §4.4)

A second definition of the parsed relation set, rendered from the
specification's words rather than from the code, for the refinement claims
about `parse_cdp_nei`. -/

/-- The spec's per-line rule (§4.4): `field[0]` is the remote device name,
`fields[1..2]` concatenated the local port identifier, the last two fields
concatenated the remote port identifier; the relation
`(local name, local port) ↦ (remote name, remote port)` is inserted with
last-seen-wins semantics. -/
def specStep (localName : List Char) (d : NeighborDict) (l : List Char) :
    NeighborDict :=
  dictUpdate d
    (localName, (pyWords l).getD 1 [] ++ (pyWords l).getD 2 [])
    ((pyWords l).getD 0 [],
      (pyWords l).getD ((pyWords l).length - 2) [] ++
        (pyWords l).getD ((pyWords l).length - 1) [])

/-- The spec's relation set (§4.4): apply `specStep` to every neighbor line
in order, starting from the empty set. -/
def specRelations (localName : List Char) (lines : List (List Char)) :
    NeighborDict :=
  lines.foldl (specStep localName) []

/-- Assemble a neighbor-table body from its lines: a newline before each
line, no trailing newline. -/
def linesText (lines : List (List Char)) : List Char :=
  lines.foldr (fun l acc => '\n' :: (l ++ acc)) []

/-! ### Concrete fixtures

Devices and connection behaviours used by the concrete theorems. -/

/-- Inventory row for device `R1` with the `client` NTP role. -/
def devR1 : Device :=
  ⟨chars "192.168.1.1", chars "cisco", chars "cisco", chars "cisco_ios",
   chars "R1", chars "client"⟩

/-- Inventory row for device `R2` with the `server` NTP role. -/
def devR2 : Device :=
  ⟨chars "192.168.1.2", chars "cisco", chars "cisco", chars "cisco_ios",
   chars "R2", chars "server"⟩

/-- A version banner carrying the `K9` license marker. -/
def verBannerK9 : List Char :=
  chars "Cisco IOS Software, C2900 Software (C2900-UNIVERSALK9-M), Version 15.0(1)M4, RELEASE SOFTWARE (fc1)"

/-- A version banner with no `k9`/`K9` license marker anywhere. -/
def verBannerNoK9 : List Char :=
  chars "Cisco IOS Software, C2900 Software (C2900-UNIVERSALM-M), Version 15.0(1)M4, RELEASE SOFTWARE (fc1)"

/-- A `sho cdp neigh` output with one neighbor line. -/
def cdpGoodText : List Char :=
  chars "R2>sho cdp neigh\nDevice ID        Local Intrfce     Holdtme    Capability  Platform  Port ID\nR3               Gig 0/1           170              R S I  C2900     Gig 0/2"

/-- A `sho cdp neigh` output with a well-formed header and zero neighbor
lines. -/
def cdpOffText : List Char :=
  chars "R2>sho cdp neigh\nDevice ID        Local Intrfce     Holdtme    Capability  Platform  Port ID"

/-- An NTP status output containing the synchronized phrase. -/
def ntpGoodText : List Char :=
  chars "Clock is synchronized, stratum 2, reference is 192.168.194.101"

/-- A connection on which every command of the audit succeeds with
well-formed output. -/
def goodConn : Conn where
  enableOk := true
  send_command := fun cmd =>
    if cmd = chars "sh run" then some (chars "hostname R2\nend")
    else if cmd = chars "sho ver | in IOS" then some verBannerK9
    else if cmd = chars "sho run | in no cdp run" then some []
    else if cmd = chars "sho cdp neigh" then some cdpGoodText
    else if cmd = chars "sho ntp status" then some ntpGoodText
    else none
  send_config_set := fun _ => some []

/-- Like `goodConn`, but the `sh run` command raises. -/
def connShRunFails : Conn :=
  { goodConn with
    send_command := fun cmd =>
      if cmd = chars "sh run" then none else goodConn.send_command cmd }

/-- Like `goodConn`, but the `sho ver | in IOS` command raises. -/
def connVerFails : Conn :=
  { goodConn with
    send_command := fun cmd =>
      if cmd = chars "sho ver | in IOS" then none
      else goodConn.send_command cmd }

/-- Like `goodConn`, but `sho cdp neigh` returns text that lacks the
`Port ID` marker. -/
def connCdpNoMarker : Conn :=
  { goodConn with
    send_command := fun cmd =>
      if cmd = chars "sho cdp neigh" then some (chars "R4 Gig 0/1")
      else goodConn.send_command cmd }

/-- Like `goodConn`, but `sho cdp neigh` returns a table with zero neighbor
lines (while CDP is administratively enabled on the device). -/
def connCdpOff : Conn :=
  { goodConn with
    send_command := fun cmd =>
      if cmd = chars "sho cdp neigh" then some cdpOffText
      else goodConn.send_command cmd }

/-- Like `goodConn`, but the version banner carries no license marker. -/
def connNoK9 : Conn :=
  { goodConn with
    send_command := fun cmd =>
      if cmd = chars "sho ver | in IOS" then some verBannerNoK9
      else goodConn.send_command cmd }

/-- The summary line `process_target` builds for hostname `R1` against
`goodConn`. -/
def recR1 : List Char :=
  chars "R1| C2900 | Version 15.0(1)M4|PE|CDP is on, 1 peers|Clock in Sync"

/-- The summary line `process_target` builds for hostname `R2` against
`goodConn`. -/
def recR2 : List Char :=
  chars "R2| C2900 | Version 15.0(1)M4|PE|CDP is on, 1 peers|Clock in Sync"

/-! ### Lemmas about the string helpers -/

theorem splitOnP_ne_nil (p : Char → Bool) (s : List Char) : splitOnP p s ≠ [] := by
  cases s with
  | nil => simp [splitOnP]
  | cons c rest =>
    simp only [splitOnP]
    split <;> simp

theorem headD_cons_tail {α : Type} (l : List α) (h : l ≠ []) (d : α) :
    l.headD d :: l.tail = l := by
  cases l with
  | nil => exact absurd rfl h
  | cons a t => rfl

theorem splitOnP_sep {p : Char → Bool} {c : Char} (rest : List Char)
    (h : p c = true) : splitOnP p (c :: rest) = [] :: splitOnP p rest := by
  simp [splitOnP, h]

theorem splitOnP_nosep {p : Char → Bool} {c : Char} (rest : List Char)
    (h : p c = false) :
    splitOnP p (c :: rest) =
      (c :: (splitOnP p rest).headD []) :: (splitOnP p rest).tail := by
  simp [splitOnP, h]

theorem splitOnP_append (p : Char → Bool) (l t : List Char)
    (h : ∀ c ∈ l, p c = false) :
    splitOnP p (l ++ t) =
      (l ++ (splitOnP p t).headD []) :: (splitOnP p t).tail := by
  induction l with
  | nil =>
    simp only [List.nil_append]
    exact (headD_cons_tail _ (splitOnP_ne_nil p t) _).symm
  | cons a l ih =>
    have ha : p a = false := h a (List.mem_cons_self a l)
    have hl : ∀ c ∈ l, p c = false := fun c hc => h c (List.mem_cons_of_mem a hc)
    rw [List.cons_append, splitOnP_nosep _ ha, ih hl]
    simp

theorem splitOnChar_not_mem {c : Char} {s : List Char} (h : c ∉ s) :
    splitOnChar c s = [s] := by
  have hp : ∀ x ∈ s, (x == c) = false := by
    intro x hx
    exact beq_eq_false_iff_ne.mpr (fun e => h (e ▸ hx))
  have := splitOnP_append (fun x => x == c) s [] hp
  simpa [splitOnChar, splitOnP] using this

theorem splitOnChar_header {c : Char} {d : List Char} (t : List Char)
    (h : c ∉ d) : splitOnChar c (d ++ c :: t) = d :: splitOnChar c t := by
  have hp : ∀ x ∈ d, (x == c) = false := by
    intro x hx
    exact beq_eq_false_iff_ne.mpr (fun e => h (e ▸ hx))
  have hc : ((c == c) = true) := beq_self_eq_true c
  rw [splitOnChar, splitOnP_append _ d (c :: t) hp,
    splitOnP_sep (p := fun x => x == c) t hc]
  simp [splitOnChar]

theorem isPrefixList_append_self (x y : List Char) :
    isPrefixList x (x ++ y) = true := by
  induction x with
  | nil => simp [isPrefixList]
  | cons a as ih => simp [isPrefixList, ih]

theorem splitFirst_of_not_mem {c : Char} (cs : List Char) {s : List Char}
    (h : c ∉ s) : splitFirst (c :: cs) s = none := by
  induction s with
  | nil => simp [splitFirst, isPrefixList]
  | cons x rest ih =>
    have h1 : c ∉ rest := fun hc => h (List.mem_cons_of_mem x hc)
    have hx : (c == x) = false :=
      beq_eq_false_iff_ne.mpr (fun e => h (e ▸ List.mem_cons_self x rest))
    simp [splitFirst, isPrefixList, hx, ih h1]

theorem splitFirst_boundary {c : Char} (cs : List Char) {a : List Char}
    (b : List Char) (h : c ∉ a) :
    splitFirst (c :: cs) (a ++ (c :: cs) ++ b) = some (a, b) := by
  induction a with
  | nil =>
    have hp : isPrefixList (c :: cs) ((c :: cs) ++ b) = true :=
      isPrefixList_append_self _ _
    have hdrop : ((c :: cs) ++ b).drop (c :: cs).length = b :=
      List.drop_left _ _
    simp only [List.nil_append]
    rw [show (c :: cs) ++ b = c :: (cs ++ b) from rfl] at hp hdrop ⊢
    rw [splitFirst, if_pos hp, hdrop]
  | cons x a ih =>
    have h1 : c ∉ a := fun hc => h (List.mem_cons_of_mem x hc)
    have hx : (c == x) = false :=
      beq_eq_false_iff_ne.mpr (fun e => h (e ▸ List.mem_cons_self x a))
    rw [show (x :: a) ++ (c :: cs) ++ b = x :: (a ++ (c :: cs) ++ b) by simp]
    rw [splitFirst]
    rw [if_neg (by simp [isPrefixList, hx])]
    rw [ih h1]

theorem pySplit1_boundary {hd body : List Char}
    (h1 : 'P' ∉ hd) (h2 : 'P' ∉ body) :
    pySplit1 (chars "Port ID") (hd ++ chars "Port ID" ++ body) = .ok body := by
  have e : chars "Port ID" = 'P' :: chars "ort ID" := rfl
  rw [pySplit1, e, splitFirst_boundary (chars "ort ID") body h1]
  simp [splitFirst_of_not_mem (chars "ort ID") h2]

theorem pyIndex_ok {α : Type} [Inhabited α] (l : List α) (i : Int) (k : Nat)
    (h1 : (if i < 0 then i + l.length else i) = (k : Int))
    (h2 : k < l.length) :
    pyIndex l i = .ok (l.getD k default) := by
  simp only [pyIndex, h1]
  rw [if_pos ⟨Int.natCast_nonneg k, by exact_mod_cast h2⟩]
  simp

/-! ### Lemmas about the parser -/

theorem lineKV_ok (w : List (List Char)) (h : 3 ≤ w.length) :
    lineKV w = .ok (w.getD 1 [] ++ w.getD 2 [],
      (w.getD 0 [], w.getD (w.length - 2) [] ++ w.getD (w.length - 1) [])) := by
  rw [lineKV,
    pyIndex_ok w 1 1 (by norm_num) (by omega),
    pyIndex_ok w 2 2 (by norm_num) (by omega),
    pyIndex_ok w 0 0 (by norm_num) (by omega),
    pyIndex_ok w (-2) (w.length - 2) (by rw [if_pos (by norm_num)]; omega) (by omega),
    pyIndex_ok w (-1) (w.length - 1) (by rw [if_pos (by norm_num)]; omega) (by omega)]
  rfl

theorem parseLines_ok (dn : List Char) :
    ∀ (lines : List (List Char)), (∀ l ∈ lines, 3 ≤ (pyWords l).length) →
      ∀ acc, parseLines dn lines acc = .ok (lines.foldl (specStep dn) acc) := by
  intro lines
  induction lines with
  | nil => intro _ acc; rfl
  | cons l ls ih =>
    intro h acc
    have hw : 3 ≤ (pyWords l).length := h l (List.mem_cons_self l ls)
    have hls : ∀ x ∈ ls, 3 ≤ (pyWords x).length :=
      fun x hx => h x (List.mem_cons_of_mem l hx)
    simp only [parseLines, lineKV_ok _ hw, List.foldl_cons]
    rw [ih hls]
    simp [specStep]

theorem dictUpdate_forall {κ ω : Type} [DecidableEq κ] (P : κ × ω → Prop)
    (d : List (κ × ω)) (k : κ) (v : ω)
    (hd : ∀ e ∈ d, P e) (hkv : P (k, v)) :
    ∀ e ∈ dictUpdate d k v, P e := by
  intro e he
  rw [dictUpdate] at he
  split at he
  · obtain ⟨p, hp, hpe⟩ := List.mem_map.mp he
    by_cases hc : p.1 = k
    · rw [if_pos hc] at hpe
      exact hpe ▸ hkv
    · rw [if_neg hc] at hpe
      exact hpe ▸ hd p hp
  · rcases List.mem_append.mp he with h' | h'
    · exact hd e h'
    · rw [List.mem_singleton.mp h']
      exact hkv

theorem parseLines_key (dn : List Char) :
    ∀ (lines : List (List Char)) (acc d : NeighborDict),
      (∀ e ∈ acc, e.1.1 = dn) → parseLines dn lines acc = .ok d →
      ∀ e ∈ d, e.1.1 = dn := by
  intro lines
  induction lines with
  | nil =>
    intro acc d ha h
    simp only [parseLines] at h
    injection h with h
    exact h ▸ ha
  | cons l ls ih =>
    intro acc d ha h
    simp only [parseLines] at h
    cases hkv : lineKV (pyWords l) with
    | error e => rw [hkv] at h; exact Except.noConfusion h
    | ok kv =>
      rw [hkv] at h
      exact ih _ _ (dictUpdate_forall _ _ _ _ ha rfl) h

theorem linesText_not_mem {c : Char} (hc : c ≠ '\n')
    {lines : List (List Char)} (h : ∀ l ∈ lines, c ∉ l) :
    c ∉ linesText lines := by
  induction lines with
  | nil => simp [linesText]
  | cons l ls ih =>
    have h1 : c ∉ l := h l (List.mem_cons_self l ls)
    have h2 : ∀ x ∈ ls, c ∉ x := fun x hx => h x (List.mem_cons_of_mem l hx)
    simp only [linesText, List.foldr_cons]
    intro hmem
    rcases List.mem_cons.mp hmem with h' | h'
    · exact hc h'
    · rcases List.mem_append.mp h' with h'' | h''
      · exact h1 h''
      · exact ih h2 h''

theorem splitOnChar_linesText {lines : List (List Char)}
    (h : ∀ l ∈ lines, '\n' ∉ l) :
    splitOnChar '\n' (linesText lines) = [] :: lines := by
  induction lines with
  | nil => simp [linesText, splitOnChar, splitOnP]
  | cons l ls ih =>
    have h1 : ∀ x ∈ l, (x == '\n') = false := by
      intro x hx
      exact beq_eq_false_iff_ne.mpr
        (fun e => h l (List.mem_cons_self l ls) (e ▸ hx))
    have h2 : ∀ x ∈ ls, '\n' ∉ x := fun x hx => h x (List.mem_cons_of_mem l hx)
    have ihh := ih h2
    rw [splitOnChar] at ihh ⊢
    simp only [linesText, List.foldr_cons] at ihh ⊢
    rw [splitOnP_sep (p := fun x => x == '\n') _ (beq_self_eq_true _),
      splitOnP_append _ l _ h1, ihh]
    simp

theorem filter_cons_nil_nonempty (lines : List (List Char))
    (h : ∀ l ∈ lines, l ≠ []) :
    (([] : List Char) :: lines).filter (fun l => !l.isEmpty) = lines := by
  rw [List.filter_cons]
  simp only [List.isEmpty_nil, Bool.not_true, if_false]
  exact List.filter_eq_self.mpr (fun a ha => by
    cases a with
    | nil => exact absurd rfl (h [] ha)
    | cons x xs => rfl)

/-- A well-formed neighbor-query response assembled from its parts: local
device name, then the prompt marker `>`, then the rest of the header up to
and including the column marker `Port ID`, then one line per neighbor. -/
def mkCdpText (d rest0 : List Char) (lines : List (List Char)) : List Char :=
  d ++ '>' :: (rest0 ++ chars "Port ID" ++ linesText lines)

/-! ### Claim theorems -/

/-- C6: for every well-formed neighbor text — local device name `d` (free of
`>`, newline and the marker-initial `P`), a header remainder free of `P`,
and neighbor lines each free of newline and `P` and carrying at least three
whitespace-delimited fields — `parse_cdp_nei` returns exactly the relation
set prescribed by spec §4.4 (`specRelations`): each line maps the key
`(d, fields[1] ++ fields[2])` to the value
`(fields[0], last two fields concatenated)`. -/
theorem parse_cdp_nei_wellformed
    (d rest0 : List Char) (lines : List (List Char))
    (hgt : '>' ∉ d) (hnl : '\n' ∉ d) (hPd : 'P' ∉ d) (hPr : 'P' ∉ rest0)
    (hl : ∀ l ∈ lines, '\n' ∉ l ∧ 'P' ∉ l ∧ 3 ≤ (pyWords l).length) :
    parse_cdp_nei (mkCdpText d rest0 lines) = .ok (specRelations d lines) := by
  have hPbody : 'P' ∉ linesText lines :=
    linesText_not_mem (by decide) (fun l hx => (hl l hx).2.1)
  have hPhd : 'P' ∉ (d ++ '>' :: rest0) := by
    intro hmem
    rcases List.mem_append.mp hmem with h' | h'
    · exact hPd h'
    · rcases List.mem_cons.mp h' with h'' | h''
      · exact absurd h'' (by decide)
      · exact hPr h''
  have hassoc : mkCdpText d rest0 lines
      = (d ++ '>' :: rest0) ++ chars "Port ID" ++ linesText lines := by
    simp [mkCdpText]
  have hsplit1 : pySplit1 (chars "Port ID") (mkCdpText d rest0 lines)
      = .ok (linesText lines) := by
    rw [hassoc]
    exact pySplit1_boundary hPhd hPbody
  have hname : ((splitOnChar '>' (mkCdpText d rest0 lines)).headD []).filter
      (fun c => c != '\n') = d := by
    rw [mkCdpText, splitOnChar_header _ hgt, List.headD_cons]
    exact List.filter_eq_self.mpr (fun c hc =>
      bne_iff_ne.mpr (fun e => hnl (e ▸ hc)))
  have hnonempty : ∀ l ∈ lines, l ≠ [] := by
    intro l hx e
    have h3 := (hl l hx).2.2
    rw [e] at h3
    revert h3
    decide
  simp only [parse_cdp_nei, hsplit1, hname,
    splitOnChar_linesText (fun l hx => (hl l hx).1),
    filter_cons_nil_nonempty _ hnonempty]
  exact parseLines_ok d lines (fun l hx => (hl l hx).2.2) []

/-- The header remainder of the spec's §4.4 scenario text (no `P` before the
`Port ID` marker). -/
def c6rest : List Char :=
  chars "sho cdp neigh\nDevice ID   Local Intrfce   Holdtme   Capability   "

/-- The one neighbor line of the spec's §4.4 scenario:
`R2 Gig 0/1 ... Gig 0/2`. -/
def c6line : List Char :=
  chars "R2               Gig 0/1           170              R S I  C2900     Gig 0/2"

/-- C6 witness: header `R1>` followed by a one-line neighbor table with
fields `R2 Gig 0/1 ... Gig 0/2` parses to exactly the relation
`(R1, "Gig0/1") ↦ (R2, "Gig0/2")`. -/
theorem parse_cdp_nei_wellformed_witness :
    parse_cdp_nei (mkCdpText (chars "R1") c6rest [c6line])
      = .ok [((chars "R1", chars "Gig0/1"), (chars "R2", chars "Gig0/2"))] := by
  have h := parse_cdp_nei_wellformed (chars "R1") c6rest [c6line]
    (by decide) (by decide) (by decide) (by decide) (by decide)
  exact h.trans (by rfl)

/-- C10: when the raw neighbor text contains no `>` prompt marker at all,
the header extraction still succeeds — `split('>')` returns the whole text
as its only element, so indexing `[0]` cannot raise — and every relation key
produced by a successful parse carries, as local device name, the entire raw
text with its newline characters removed. -/
theorem parse_cdp_nei_headerless (raw : List Char) (D : NeighborDict)
    (hgt : '>' ∉ raw) (hok : parse_cdp_nei raw = .ok D) :
    splitOnChar '>' raw = [raw] ∧
    ∀ e ∈ D, e.1.1 = raw.filter (fun c => c != '\n') := by
  have hs : splitOnChar '>' raw = [raw] := splitOnChar_not_mem hgt
  refine ⟨hs, ?_⟩
  simp only [parse_cdp_nei] at hok
  cases hb : pySplit1 (chars "Port ID") raw with
  | error e => rw [hb] at hok; exact Except.noConfusion hok
  | ok body =>
    rw [hb] at hok
    have hkey := parseLines_key _ _ _ _
      (fun e he => absurd he (List.not_mem_nil e)) hok
    intro e he
    rw [hkey e he, hs]
    rfl

/-- A raw neighbor text with the `Port ID` marker but no `>` prompt marker. -/
def c10text : List Char :=
  chars "sho cdp neigh\nDevice Port ID\nR2 Gig 0/1 170 R Gig 0/2"

/-- The dict `parse_cdp_nei` produces for `c10text`. -/
def c10dict : NeighborDict :=
  [((chars "sho cdp neighDevice Port IDR2 Gig 0/1 170 R Gig 0/2",
     chars "Gig0/1"), (chars "R2", chars "Gig0/2"))]

/-- C10 witness: on a prompt-less text the parse succeeds and its only key's
local name is the whole raw text with newlines removed. -/
theorem parse_cdp_nei_headerless_witness :
    splitOnChar '>' c10text = [c10text] ∧
    ∀ e ∈ c10dict, e.1.1 = c10text.filter (fun c => c != '\n') :=
  parse_cdp_nei_headerless c10text c10dict (by decide) (by rfl)

/-- C1: the run does not produce one record per device when a step fails.
With two healthy devices `main` collects exactly two summary lines; but when
the first device's `sh run` command raises (a per-step failure, not a
connect failure), its worker raises `NameError` (the `except Error` clause
names an undefined identifier), `process.get()` re-raises it in `main`, and
the whole run aborts with zero records — the second device's record is
dropped too, contradicting the one-record-per-device invariant. -/
theorem audit_run_record_count :
    mainResults [(devR1, some goodConn), (devR2, some goodConn)]
      = .ok [recR1, recR2] ∧
    mainResults [(devR1, some connShRunFails), (devR2, some goodConn)]
      = .error .nameError :=
  ⟨rfl, rfl⟩

/-- C2: on a version banner containing no `k9`/`K9` marker at all,
`Check_NPE` still returns `PE`, because `'k9' or 'K9' in output` is the
truthiness of the non-empty literal `'k9'` OR-ed with the membership test,
hence always true — the claimed `NPE` branch is unreachable. -/
theorem check_npe_always_pe :
    Check_NPE connNoK9 = .ok (.str (chars "PE")) ∧
    containsSub (chars "k9") verBannerNoK9 = false ∧
    containsSub (chars "K9") verBannerNoK9 = false :=
  ⟨rfl, rfl, rfl⟩

/-- C3: a failing step does not record a sentinel and continue — when the
`sho ver | in IOS` command raises, the step's `except Error` clause itself
raises `NameError` (undefined identifier), the sentinel branch never runs,
and the exception aborts the whole pipeline, so no record is emitted. -/
theorem step_error_aborts_pipeline :
    Check_dev_pid connVerFails = .error .nameError ∧
    Check_ver connVerFails = .error .nameError ∧
    (process_target devR2 (some connVerFails)).1 = .error .nameError :=
  ⟨rfl, rfl, rfl⟩

/-- C4 counterexample: a device whose connect fails yields no record at all
(let alone a connect-failed one), and the exception propagates into the
scheduler's collection loop: with a second, fully healthy device in the
inventory the run returns no records — even though that second device alone
would have produced its summary line. -/
theorem connect_failure_drops_all_records_cex :
    (process_target devR1 none).1 = .error .netError ∧
    (process_target devR1 none).2 = false ∧
    mainResults [(devR1, none), (devR2, some goodConn)] = .error .netError ∧
    mainResults [(devR2, some goodConn)] = .ok [recR2] :=
  ⟨rfl, rfl, rfl, rfl⟩

/-- C4 amended: a failed connect makes `process_target` raise (no record,
no disconnect), and `main`'s `process.get()` re-raises that exception,
aborting result collection for the whole inventory after it. -/
theorem connect_failure_propagates_to_scheduler (d : Device)
    (rest : List (Device × Option Conn)) :
    process_target d none = (.error .netError, false) ∧
    mainResults ((d, none) :: rest) = .error .netError :=
  ⟨rfl, rfl⟩

/-- C5: neighbor text that does not match the expected shape crashes the
worker instead of degrading: text without the `Port ID` marker raises
`IndexError` in `parse_cdp_nei`, as does a neighbor line with too few
whitespace fields; inside `check_cdp` the broken `except Error` clause turns
this into a `NameError` that escapes the step and aborts the pipeline. -/
theorem topology_parse_error_crashes_worker :
    parse_cdp_nei (chars "R4 Gig 0/1") = .error .indexError ∧
    parse_cdp_nei (chars "R1>x Port ID\nR2 Gig") = .error .indexError ∧
    check_cdp connCdpNoMarker = .error .nameError ∧
    (process_target devR2 (some connCdpNoMarker)).1 = .error .nameError :=
  ⟨rfl, rfl, rfl, rfl⟩

/-- C7 counterexample: on a device where topology discovery is NOT
administratively disabled (the `no cdp run` query output is empty) but the
neighbor table parses to zero relations, `check_cdp` reports `CDP is off` —
not the claimed `CDP is on, 0 peers` — so the reported outcome tracks the
parsed peer count, not the administrative state. -/
theorem check_cdp_admin_state_cex :
    connCdpOff.send_command (chars "sho run | in no cdp run") = some [] ∧
    containsSub (chars "no cdp run") [] = false ∧
    parse_cdp_nei cdpOffText = .ok [] ∧
    check_cdp connCdpOff = .ok (.str (chars "CDP is off")) ∧
    chars "CDP is off" ≠ chars "CDP is on, 0 peers" :=
  ⟨rfl, rfl, rfl, rfl, by decide⟩

/-- C7 amended: when every command of the topology step succeeds and the
neighbor output parses to the relation set `D`, `check_cdp` reports
`CDP is on, N peers` with `N = D.length` when `D` is non-empty and
`CDP is off` when `D` is empty — regardless of the administrative state,
which only decides whether the re-enable config command is sent. -/
theorem check_cdp_reports_by_peer_count (c : Conn) (out1 out2 : List Char)
    (D : NeighborDict)
    (hen : c.enableOk = true)
    (h1 : c.send_command (chars "sho run | in no cdp run") = some out1)
    (hcfg : containsSub (chars "no cdp run") out1 = true →
      ∃ o, c.send_config_set (chars "cdp run") = some o)
    (h2 : c.send_command (chars "sho cdp neigh") = some out2)
    (hp : parse_cdp_nei out2 = .ok D) :
    check_cdp c = .ok (.str (if D.length ≠ 0 then
      chars "CDP is on, " ++ chars (toString D.length) ++ chars " peers"
      else chars "CDP is off")) := by
  have he : enableCall c = .ok () := by simp [enableCall, hen]
  have hn1 : netCall (c.send_command (chars "sho run | in no cdp run"))
      = .ok out1 := by rw [h1]; rfl
  have hn2 : netCall (c.send_command (chars "sho cdp neigh")) = .ok out2 := by
    rw [h2]; rfl
  have hmid : ∃ o, (if containsSub (chars "no cdp run") out1 then
      netCall (c.send_config_set (chars "cdp run"))
      else .ok []) = .ok o := by
    by_cases hc : containsSub (chars "no cdp run") out1 = true
    · obtain ⟨o, ho⟩ := hcfg hc
      exact ⟨o, by rw [if_pos hc, ho]; rfl⟩
    · exact ⟨[], by rw [if_neg hc]⟩
  obtain ⟨o, ho⟩ := hmid
  simp only [check_cdp, he, hn1, ho, hn2, hp]
  by_cases hD : D.length = 0 <;> simp [hD, tryExceptError]

/-- C7 witness: on the healthy connection the parsed set has one relation
and the step reports `CDP is on, 1 peers`. -/
theorem check_cdp_reports_by_peer_count_witness :
    check_cdp goodConn = .ok (.str (chars "CDP is on, 1 peers")) := by
  have h := check_cdp_reports_by_peer_count goodConn [] cdpGoodText
    [((chars "R2", chars "Gig0/1"), (chars "R3", chars "Gig0/2"))]
    rfl rfl (fun _ => ⟨[], rfl⟩) rfl (by rfl)
  exact h.trans (by rfl)

/-- C8: after a session has been opened, a failing step makes the exception
escape before line 250, so `disconnect_from_device` never runs (second
component `false`) — the session is leaked on that exit path. -/
theorem disconnect_skipped_on_step_failure :
    connect_to_device (some connShRunFails) = .ok connShRunFails ∧
    process_target devR2 (some connShRunFails) = (.error .nameError, false) :=
  ⟨rfl, rfl⟩

/-- C9: when the commands of the time-sync step succeed, `config_ntp`
reports `Clock in Sync` exactly when the status output contains the literal
phrase `Clock is synchronized`, and `Clock not in Sync` for any other
status text. -/
theorem config_ntp_sync_iff (c : Conn) (t status : List Char)
    (hen : c.enableOk = true)
    (htz : ∃ o, c.send_config_set (chars "clock timezone GMT 0") = some o)
    (hsrv : t = chars "server" →
      ∃ o, c.send_config_set (chars "ntp master") = some o)
    (hcli : t = chars "client" →
      ∃ o, c.send_config_set (chars "ntp server 192.168.194.101") = some o)
    (hst : c.send_command (chars "sho ntp status") = some status) :
    config_ntp c t = .ok (.str
      (if containsSub (chars "Clock is synchronized") status
       then chars "Clock in Sync" else chars "Clock not in Sync")) := by
  obtain ⟨o1, ho1⟩ := htz
  have he : enableCall c = .ok () := by simp [enableCall, hen]
  have h1 : netCall (c.send_config_set (chars "clock timezone GMT 0"))
      = .ok o1 := by rw [ho1]; rfl
  have hst' : netCall (c.send_command (chars "sho ntp status")) = .ok status := by
    rw [hst]; rfl
  have hmid : ∃ o2, (if t = chars "server" then
      netCall (c.send_config_set (chars "ntp master"))
      else if t = chars "client" then
        netCall (c.send_config_set (chars "ntp server 192.168.194.101"))
      else .ok []) = .ok o2 := by
    by_cases hts : t = chars "server"
    · obtain ⟨o, ho⟩ := hsrv hts
      exact ⟨o, by rw [if_pos hts, ho]; rfl⟩
    · by_cases htc : t = chars "client"
      · obtain ⟨o, ho⟩ := hcli htc
        exact ⟨o, by rw [if_neg hts, if_pos htc, ho]; rfl⟩
      · exact ⟨[], by rw [if_neg hts, if_neg htc]⟩
  obtain ⟨o2, ho2⟩ := hmid
  simp only [config_ntp, he, h1, ho2, hst']
  by_cases hcs : containsSub (chars "Clock is synchronized") status = true <;>
    simp [hcs, tryExceptError]

/-- C9 witness: on the healthy connection, whose status output contains the
phrase, the step reports `Clock in Sync`. -/
theorem config_ntp_sync_iff_witness :
    config_ntp goodConn (chars "server") = .ok (.str (chars "Clock in Sync")) := by
  have h := config_ntp_sync_iff goodConn (chars "server") ntpGoodText rfl
    ⟨[], rfl⟩ (fun _ => ⟨[], rfl⟩) (fun _ => ⟨[], rfl⟩) rfl
  exact h.trans (by rfl)

end Marathon
